import Mathlib

/-!
Verification of the criner work pipeline and its durable task/result store.

The definitions below are a shallow embedding of the Rust sources:
  * `criner/src/model.rs` — the domain model (`TaskState` and its merge).
  * `criner/src/persistence/tree.rs` — the `TreeAccess` store operations
    (`get`, `update`, `upsert`, `insert`), the busy-retry wrapper and the
    per-table merge policies.
  * `criner/src/engine/work/iobound.rs` — the download agent: path
    computation (`crate_dir`, `download_file_path`), `Agent::set` and
    `download_file_and_store_result` / `Agent::process`.

Machine integers are embedded as `Nat` with explicit `% 2 ^ 32` where the
source casts `u64` to `u32`. SQLite tables `(key TEXT PRIMARY KEY, data BLOB)`
are embedded as finite maps `String → Option Item`; the msgpack encoding of
`data` (in `persistence/serde.rs`, not part of the verified sources) is
abstracted as the identity, per the spec's round-trip requirement on the
`data` column. Rust panics (`panic!`, `todo!`) are embedded as `Option`/
`Except` error values.
-/

namespace Criner

/-- The `TaskState` variants of `model.rs`. -/
inductive TaskState where
  | notStarted
  | attemptsWithFailure (failures : List String)
  | complete
  | inProgress (previous : Option (List String))
deriving DecidableEq, Repr

/-- Embeds the local `merge_vec` of `TaskState::merged` (model.rs:151):
`existing.extend(new.iter().map(clone))`. -/
def merge_vec (existing new : List String) : List String :=
  existing ++ new

/-- Embeds `TaskState::merged` (model.rs:149-170). The source `panic!`s on
the pair `(AttemptsWithFailure, InProgress(Some·))`; that arm is embedded as
`none`. All other arms return `some` of the merged state. -/
def TaskState.merged : TaskState → TaskState → Option TaskState
  | .attemptsWithFailure existing, .attemptsWithFailure new =>
      some (.attemptsWithFailure (merge_vec existing new))
  | .attemptsWithFailure existing, .inProgress none =>
      some (.inProgress (some existing))
  | .attemptsWithFailure _, .inProgress (some _) => none
  | .inProgress (some existing), .attemptsWithFailure other =>
      some (.attemptsWithFailure (merge_vec existing other))
  | _, other => some other

/-- Written from the spec's words (§4.2 merge rule), to be compared with
`TaskState.merged` which is embedded from the source: AWF/AWF concatenates,
AWF/InProgress-none carries the failures over, InProgress-some/AWF
concatenates, AWF/InProgress-some is disallowed, every other pair takes the
new state verbatim. -/
def TaskState.mergedSpec : TaskState → TaskState → Option TaskState
  | .attemptsWithFailure a, .attemptsWithFailure b =>
      some (.attemptsWithFailure (a ++ b))
  | .attemptsWithFailure a, .inProgress none =>
      some (.inProgress (some a))
  | .attemptsWithFailure _, .inProgress (some _) => none
  | .inProgress (some a), .attemptsWithFailure b =>
      some (.attemptsWithFailure (a ++ b))
  | _, new => some new

/-- A store table, embedding a SQLite `(key TEXT PRIMARY KEY, data BLOB)`
table of `persistence/tree.rs` as a finite map from key to stored item. -/
def Table (Item : Type) : Type := String → Option Item

/-- Embeds the single `SELECT data FROM tbl WHERE key = k` of
`TreeAccess::get` (tree.rs:38-53). -/
def Table.get {Item : Type} (t : Table Item) (key : String) : Option Item :=
  t key

/-- Embeds `REPLACE INTO tbl (key, data) VALUES (k, v)` (tree.rs:93-99). -/
def Table.replaceInto {Item : Type} (t : Table Item) (key : String) (v : Item) :
    Table Item :=
  fun k => if k = key then some v else t k

/-- Embeds `TreeAccess::update` (tree.rs:56-103): inside one transaction,
read the row, apply `f` to it (or to the default item when no row exists),
`REPLACE INTO` the result, and return the new value. -/
def Table.update {Item : Type} [Inhabited Item] (t : Table Item) (key : String)
    (f : Item → Item) : Table Item × Item :=
  let newValue :=
    match t key with
    | none => f default
    | some d => f d
  (t.replaceInto key newValue, newValue)

/-- Embeds `TreeAccess::upsert` (tree.rs:106-144): inside one transaction,
read the row, combine it with the insert item through the table's `merge`;
on `some value` the row is replaced and the value returned, on `none` the
source hits `todo!("deletion of values - I don't think we need that")`,
embedded as an `Except.error` carrying the panic message; the transaction
then commits with no write performed, so the table is returned unchanged. -/
def Table.upsert {Item Insert : Type}
    (merge : Insert → Option Item → Option Item)
    (t : Table Item) (key : String) (item : Insert) :
    Except String Item × Table Item :=
  match merge item (t key) with
  | some value => (.ok value, t.replaceInto key value)
  | none => (.error "deletion of values - I don't think we need that", t)

/-- Lexicographic comparison of char sequences by code point, embedding
`Ord for str` (byte-lexicographic; identical on the ASCII data the store
holds). -/
def lexLe : List Char → List Char → Bool
  | [], _ => true
  | _ :: _, [] => false
  | a :: as, b :: bs =>
    if a.toNat < b.toNat then true
    else if b.toNat < a.toNat then false
    else lexLe as bs

/-- String comparison used by `Vec::sort` on version strings. -/
def strLe (a b : String) : Bool :=
  lexLe a.data b.data

/-- The `Crate` record (model.rs:8-13): the list of published version
strings. -/
structure Crate where
  versions : List String
deriving DecidableEq, Repr

/-- Embeds `CratesTree::merge` (tree.rs:356-378): when a row exists, the
incoming version replaces its first equal occurrence in `versions` if
present, is pushed otherwise, and the list is re-sorted (`Vec::sort`, a
stable ascending sort — embedded as `List.insertionSort` over `strLe`,
which agrees with any correct sort here since equal keys are identical
strings); when no row exists the result is `Crate::from`, a singleton
list. The source always returns `Some`. -/
def CratesTree.merge (new_version : String) (existing : Option Crate) :
    Option Crate :=
  some <|
    match existing with
    | some c =>
      let vs :=
        if new_version ∈ c.versions
        then c.versions.replace new_version new_version
        else c.versions ++ [new_version]
      ⟨vs.insertionSort (fun a b => strLe a b = true)⟩
    | none => ⟨[new_version]⟩

/-- The storage errors `retry_on_failure` (tree.rs:161-188) distinguishes:
`busy` embeds `SqliteFailure(DatabaseBusy, extended_code 5)`, `other`
embeds every different error. -/
inductive DbError where
  | busy
  | other (msg : String)
deriving DecidableEq, Repr

/-- The observable outcome of a `retry_on_failure` run: the returned
result, how many times the closure was invoked, and how many 1 ms sleeps
were performed. -/
structure RetryOutcome (T : Type) where
  result : Except DbError T
  invocations : Nat
  sleepMs : Nat
deriving Repr

/-- Embeds the loop body of `retry_on_failure` (tree.rs:164-187), with the
closure `f` indexed by the 1-based attempt counter: an `Ok` or a non-busy
error is returned at once; on busy, when `attempt == max_wait_ms` the busy
error is returned, otherwise the loop sleeps 1 ms and retries. `fuel` is
`max_wait_ms - attempt`, so the inner match on `fuel = 0` embeds the
`attempt == max_wait_ms` check. -/
def retryGo {T : Type} (f : Nat → Except DbError T)
    (attempt sleepMs fuel : Nat) : RetryOutcome T :=
  match f attempt with
  | .ok v => ⟨.ok v, attempt, sleepMs⟩
  | .error (.other m) => ⟨.error (.other m), attempt, sleepMs⟩
  | .error .busy =>
    match fuel with
    | 0 => ⟨.error .busy, attempt, sleepMs⟩
    | fuel' + 1 => retryGo f (attempt + 1) (sleepMs + 1) fuel'

/-- Embeds `retry_on_failure` (tree.rs:161-188): `max_wait_ms = 1000`, the
attempt counter starts at 1 (it is incremented before the first call). -/
def retry_on_failure {T : Type} (f : Nat → Except DbError T) :
    RetryOutcome T :=
  retryGo f 1 0 (1000 - 1)

/-- A filesystem path, embedded as its list of components; `PathBuf::join`
appends a component. -/
abbrev FsPath := List String

/-- Modelled from the spec: `persistence::KEY_SEP_CHAR` lives in
`persistence/mod.rs`, which is not among the verified sources; §4.1 fixes
the reserved key/filename separator to the colon. -/
def KEY_SEP_CHAR : Char := ':'

/-- Embeds `download_file_path` (iobound.rs:239-254): joins onto `base_dir`
the single component `{crate_version}-{process}{sep}{version}.{kind}`. -/
def download_file_path (base_dir : FsPath)
    (crate_version process version kind : String) : FsPath :=
  base_dir ++
    [crate_version ++ "-" ++ process ++ KEY_SEP_CHAR.toString ++ version
      ++ "." ++ kind]

/-- Embeds `crate_dir` (iobound.rs:256-267), matching on the crate-name
length: 1 → `"1"/name`, 2 → `"2"/name`, 3 → `"3"/name[..1]`, otherwise
`name[..2]/name[2..4]/name`. The source byte-slices and assumes ASCII
(char positions coincide with byte positions); `none` embeds the panic of
`&crate_name[..2]` on the empty name. -/
def crate_dir (assets_dir : FsPath) (crate_name : String) : Option FsPath :=
  if crate_name.length = 1 then some (assets_dir ++ ["1", crate_name])
  else if crate_name.length = 2 then some (assets_dir ++ ["2", crate_name])
  else if crate_name.length = 3 then
    some (assets_dir ++ ["3", crate_name.take 1])
  else if 4 ≤ crate_name.length then
    some (assets_dir ++
      [crate_name.take 2, (crate_name.drop 2).take 2, crate_name])
  else none

/-- Embeds the output-path computation of `Agent::set` (iobound.rs:83-90):
`crate_dir` followed by `download_file_path` with the persisted dummy
task's process `"download"` and process version `"1.0.0"`
(iobound.rs:157-166). -/
def agent_set_out_file (assets_dir : FsPath)
    (crate_name crate_version kind : String) : Option FsPath :=
  (crate_dir assets_dir crate_name).map fun base_dir =>
    download_file_path base_dir crate_version "download" "1.0.0" kind

/-- Written from the spec's words (§4.4): `shard(name)` is
`len==1 → "1"/name`, `len==2 → "2"/name`, `len==3 → "3"/name[..1]`,
`len≥4 → name[..2]/name[2..4]/name`. -/
def shard_spec (name : String) : Option FsPath :=
  if name.length = 1 then some ["1", name]
  else if name.length = 2 then some ["2", name]
  else if name.length = 3 then some ["3", name.take 1]
  else if 4 ≤ name.length then
    some [name.take 2, (name.drop 2).take 2, name]
  else none

/-- Written from the spec's words (§4.4): the on-disk path
`assets_dir / shard(crate_name) / crate_version /
"download{SEP}1.0.0.{kind}"`, with the crate version as a directory
component of its own. -/
def spec_set_out_file (assets_dir : FsPath) (name version kind : String) :
    Option FsPath :=
  (shard_spec name).map fun s =>
    assets_dir ++ s ++
      [version, "download" ++ KEY_SEP_CHAR.toString ++ "1.0.0." ++ kind]

/-- An HTTP response as the download sees it: the Content-Length header
value (`u64`) when present, the Content-Type header, and the body chunks
(byte sequences) in arrival order. -/
structure HttpResponse where
  content_length : Option Nat
  content_type : Option String
  chunks : List (List Nat)

/-- The error the download path of iobound.rs produces in this model:
`Error::InvalidHeader` with its reason string (iobound.rs:186). -/
inductive DlError where
  | invalidHeader (reason : String)
deriving DecidableEq, Repr

/-- The `TaskResult` variants the download agent reads or writes
(model.rs:234-253); `content_length` holds the stored `u32`. The
`ExplodedCrate` variant is never produced by the embedded code paths and
is omitted. -/
inductive TaskResult where
  | noResult
  | download (kind url : String) (content_length : Nat)
      (content_type : Option String)
deriving DecidableEq, Repr

/-- The asset directory contents: a map from path to file bytes. -/
def Files : Type := FsPath → Option (List Nat)

/-- Embeds `download_file_and_store_result` (iobound.rs:168-237) on runs
where no timeout fires: require the Content-Length header, failing with
`InvalidHeader("expected content-length")` when absent; record its value
cast to `u32` (`% 2 ^ 32`); create/truncate the output file and write the
body chunks in order (each chunk write modeled as appending the chunk
whole); finally insert a `TaskResult::Download` row under `key` — an
overwrite, per `TaskResultTree::merge` (tree.rs:286-293). The first
component is the function's `Result`; the others are the result table and
the asset directory after the call. -/
def download_file_and_store_result (results : Table TaskResult)
    (files : Files) (key kind url : String) (out_file : FsPath)
    (res : HttpResponse) :
    Except DlError Unit × Table TaskResult × Files :=
  match res.content_length with
  | none => (.error (.invalidHeader "expected content-length"),
             results, files)
  | some n =>
    let size := n % 2 ^ 32
    let body := res.chunks.flatten
    let files' : Files := fun p => if p = out_file then some body else files p
    (.ok (),
     results.replaceInto key (.download kind url size res.content_type),
     files')

/-- Embeds `Agent::process` (iobound.rs:111-132): run the download and wrap
any error with the context string `Failed to download '<url>'`. -/
def agent_process (results : Table TaskResult) (files : Files)
    (key kind url : String) (out_file : FsPath) (res : HttpResponse) :
    Except (DlError × String) Unit × Table TaskResult × Files :=
  let r := download_file_and_store_result results files key kind url
    out_file res
  (r.1.mapError fun err => (err, "Failed to download '" ++ url ++ "'"), r.2)

end Criner

namespace Criner

theorem lexLe_total (as bs : List Char) :
    lexLe as bs = true ∨ lexLe bs as = true := by
  induction as generalizing bs with
  | nil => left; rfl
  | cons a as ih =>
    cases bs with
    | nil => right; rfl
    | cons b bs =>
      by_cases h1 : a.toNat < b.toNat
      · left; simp [lexLe, h1]
      · by_cases h2 : b.toNat < a.toNat
        · right; simp [lexLe, h1, h2]
        · rcases ih bs with h | h
          · left; simpa [lexLe, h1, h2] using h
          · right; simpa [lexLe, h1, h2] using h

theorem lexLe_trans (as bs cs : List Char) (hab : lexLe as bs = true)
    (hbc : lexLe bs cs = true) : lexLe as cs = true := by
  induction as generalizing bs cs with
  | nil => rfl
  | cons a as ih =>
    cases bs with
    | nil => simp [lexLe] at hab
    | cons b bs =>
      cases cs with
      | nil => simp [lexLe] at hbc
      | cons c cs =>
        by_cases h1 : a.toNat < b.toNat <;> by_cases h2 : b.toNat < c.toNat
        · simp [lexLe, show a.toNat < c.toNat by omega]
        · by_cases h4 : c.toNat < b.toNat
          · simp [lexLe, h2, h4] at hbc
          · simp [lexLe, show a.toNat < c.toNat by omega]
        · by_cases h3 : b.toNat < a.toNat
          · simp [lexLe, h1, h3] at hab
          · simp [lexLe, show a.toNat < c.toNat by omega]
        · by_cases h3 : b.toNat < a.toNat
          · simp [lexLe, h1, h3] at hab
          · by_cases h4 : c.toNat < b.toNat
            · simp [lexLe, h2, h4] at hbc
            · have hac : ¬ a.toNat < c.toNat := by omega
              have hca : ¬ c.toNat < a.toNat := by omega
              simp only [lexLe, h1, h3, if_false, if_neg h1, if_neg h3] at hab
              simp only [lexLe, if_neg h2, if_neg h4] at hbc
              simp only [lexLe, if_neg hac, if_neg hca]
              exact ih bs cs hab hbc

theorem list_replace_self (l : List String) (a : String) :
    l.replace a a = l := by
  induction l with
  | nil => rfl
  | cons x xs ih =>
    simp only [List.replace]
    cases h : a == x
    · simp only [ih]
    · rw [eq_of_beq h]

theorem cratesMerge_preserves (v : String) (st : Option Crate)
    (hst : ∀ c, st = some c → c.versions.Nodup) :
    ∀ c, CratesTree.merge v st = some c →
      c.versions.Nodup ∧
      List.Sorted (fun a b => strLe a b = true) c.versions := by
  intro c hc
  cases st with
  | none =>
    simp only [CratesTree.merge, Option.some.injEq] at hc
    subst hc
    exact ⟨List.nodup_singleton v, List.sorted_singleton v⟩
  | some c0 =>
    simp only [CratesTree.merge, Option.some.injEq] at hc
    subst hc
    have hnodup :
        (if v ∈ c0.versions
         then c0.versions.replace v v
         else c0.versions ++ [v]).Nodup := by
      by_cases hv : v ∈ c0.versions
      · rw [if_pos hv, list_replace_self]
        exact hst c0 rfl
      · rw [if_neg hv, List.nodup_append]
        refine ⟨hst c0 rfl, List.nodup_singleton v, ?_⟩
        intro a ha hav
        rw [List.mem_singleton] at hav
        exact hv (hav ▸ ha)
    constructor
    · exact ((List.perm_insertionSort _ _).nodup_iff).mpr hnodup
    · exact @List.sorted_insertionSort String _ _
        ⟨fun a b => lexLe_total a.data b.data⟩
        ⟨fun a b c hab hbc => lexLe_trans a.data b.data c.data hab hbc⟩ _

theorem cratesFold_inv (inserts : List String) (st : Option Crate)
    (hst : ∀ c, st = some c →
      c.versions.Nodup ∧
      List.Sorted (fun a b => strLe a b = true) c.versions) :
    ∀ c, inserts.foldl (fun s v => CratesTree.merge v s) st = some c →
      c.versions.Nodup ∧
      List.Sorted (fun a b => strLe a b = true) c.versions := by
  induction inserts generalizing st with
  | nil => exact hst
  | cons v vs ih =>
    intro c hc
    refine ih (CratesTree.merge v st) ?_ c hc
    intro c' hc'
    refine ⟨(cratesMerge_preserves v st (fun c h => (hst c h).1) c' hc').1,
      (cratesMerge_preserves v st (fun c h => (hst c h).1) c' hc').2⟩

/-- Claim C1: `TaskState.merged` agrees with the spec's §4.2 merge rule on
every pair of states — AWF/AWF concatenates the failure lists,
AWF/InProgress-none yields InProgress-some of the failures,
InProgress-some/AWF concatenates, AWF/InProgress-some is disallowed (the
source panics), and every other pair yields the new state verbatim — and
folding the rule over AWF ["a"], InProgress none, AWF ["b"] passes through
InProgress (some ["a"]) and ends at AWF ["a", "b"]. -/
theorem merged_follows_spec :
    (∀ s t : TaskState, s.merged t = s.mergedSpec t) ∧
    (TaskState.attemptsWithFailure ["a"]).merged (.inProgress none)
      = some (.inProgress (some ["a"])) ∧
    (TaskState.inProgress (some ["a"])).merged (.attemptsWithFailure ["b"])
      = some (.attemptsWithFailure ["a", "b"]) := by
  refine ⟨fun s t => ?_, rfl, rfl⟩
  cases s <;> cases t <;> rfl

/-- Claim C2: after `update key f` the table holds, and `update` returns,
`f` applied to the previously stored item (or to the table's default item
when no row existed). -/
theorem update_then_get {Item : Type} [Inhabited Item] (t : Table Item)
    (key : String) (f : Item → Item) :
    (t.update key f).1.get key = some (f ((t.get key).getD default)) ∧
    (t.update key f).2 = f ((t.get key).getD default) := by
  unfold Table.update Table.get Table.replaceInto
  cases h : t key <;> simp [h]

/-- Claim C3, counterexample: with a merge function returning `none`,
`upsert` is not a no-op — it does not complete normally, because the source
hits a `todo!` panic on this branch. -/
theorem upsert_none_not_noop :
    ¬ ((Table.upsert (fun (_ : Unit) (_ : Option Unit) => none)
        (fun _ => none) "k" ()).1.isOk = true) := by
  decide

/-- Claim C3, amended: when the table's merge function returns `none`,
`upsert` performs no write and no deletion — the table is unchanged — but
it does not return normally: the source panics with the unimplemented
`todo!("deletion of values - I don't think we need that")`. -/
theorem upsert_none_panics_no_write {Item Insert : Type}
    (merge : Insert → Option Item → Option Item)
    (t : Table Item) (key : String) (item : Insert)
    (h : merge item (t.get key) = none) :
    Table.upsert merge t key item
      = (.error "deletion of values - I don't think we need that", t) := by
  unfold Table.upsert
  unfold Table.get at h
  rw [h]

/-- Witness for `upsert_none_panics_no_write` at a concrete table, key and
merge function. -/
theorem upsert_none_panics_no_write_witness :
    Table.upsert (fun (_ : Unit) (_ : Option Unit) => none)
        (fun _ => none) "k" ()
      = (.error "deletion of values - I don't think we need that",
         fun _ => none) :=
  upsert_none_panics_no_write (fun _ _ => none) (fun _ => none) "k" () rfl

/-- Claim C4: after any sequence of `CrateVersion` records is merged into a
crate row through `CratesTree.merge`, the `versions` list is strictly
ascending by string comparison (pairwise `strLe` and distinct) and has no
duplicates; every version it holds appears exactly once — in particular,
merging two records with identical version strings leaves that string
present once. -/
theorem crate_versions_strictly_sorted (inserts : List String) (c : Crate)
    (h : inserts.foldl (fun st v => CratesTree.merge v st) none = some c) :
    List.Pairwise (fun a b => strLe a b = true ∧ a ≠ b) c.versions ∧
    c.versions.Nodup ∧
    ∀ v ∈ c.versions, c.versions.count v = 1 := by
  have key := cratesFold_inv inserts none (by intro c hc; cases hc) c h
  exact ⟨key.2.and key.1, key.1,
    fun v hv => List.count_eq_one_of_mem key.1 hv⟩

/-- Witness for `crate_versions_strictly_sorted`: inserting the same
version `"1.0.0"` twice yields the row `⟨["1.0.0"]⟩`, whose list counts
that version exactly once. -/
theorem crate_versions_strictly_sorted_witness :
    (["1.0.0", "1.0.0"].foldl (fun st v => CratesTree.merge v st) none
      = some (⟨["1.0.0"]⟩ : Crate)) ∧
    List.count "1.0.0" (Crate.versions ⟨["1.0.0"]⟩) = 1 :=
  ⟨by decide,
   (crate_versions_strictly_sorted ["1.0.0", "1.0.0"] ⟨["1.0.0"]⟩
      (by decide)).2.2 "1.0.0" (by decide)⟩

theorem retryGo_invocations_bounds {T : Type} (f : Nat → Except DbError T)
    (fuel a s : Nat) :
    a ≤ (retryGo f a s fuel).invocations ∧
    (retryGo f a s fuel).invocations ≤ a + fuel := by
  induction fuel generalizing a s with
  | zero =>
    cases hfa : f a with
    | ok v => simp [retryGo, hfa]
    | error e => cases e <;> simp [retryGo, hfa]
  | succ fuel ih =>
    cases hfa : f a with
    | ok v => simp [retryGo, hfa]
    | error e =>
      cases e with
      | busy =>
        simp only [retryGo, hfa]
        have := ih (a + 1) (s + 1)
        constructor <;> omega
      | other m => simp [retryGo, hfa]

theorem retryGo_sleepMs {T : Type} (f : Nat → Except DbError T)
    (fuel a s : Nat) :
    (retryGo f a s fuel).sleepMs
      = s + ((retryGo f a s fuel).invocations - a) := by
  induction fuel generalizing a s with
  | zero =>
    cases hfa : f a with
    | ok v => simp [retryGo, hfa]
    | error e => cases e <;> simp [retryGo, hfa]
  | succ fuel ih =>
    cases hfa : f a with
    | ok v => simp [retryGo, hfa]
    | error e =>
      cases e with
      | busy =>
        simp only [retryGo, hfa]
        have h1 := ih (a + 1) (s + 1)
        have h2 := retryGo_invocations_bounds f fuel (a + 1) (s + 1)
        omega
      | other m => simp [retryGo, hfa]

theorem retryGo_all_busy {T : Type} (f : Nat → Except DbError T)
    (fuel a s : Nat)
    (h : ∀ i, a ≤ i → i ≤ a + fuel → f i = .error .busy) :
    retryGo f a s fuel = ⟨.error .busy, a + fuel, s + fuel⟩ := by
  induction fuel generalizing a s with
  | zero =>
    have hfa := h a le_rfl (by omega)
    simp [retryGo, hfa]
  | succ fuel ih =>
    have hfa := h a le_rfl (by omega)
    simp only [retryGo, hfa]
    rw [ih (a + 1) (s + 1) (fun i h1 h2 => h i (by omega) (by omega))]
    have e1 : a + 1 + fuel = a + (fuel + 1) := by omega
    have e2 : s + 1 + fuel = s + (fuel + 1) := by omega
    rw [e1, e2]

theorem retryGo_first_non_busy {T : Type} (f : Nat → Except DbError T)
    (fuel a s k : Nat) (hak : a ≤ k) (hk : k ≤ a + fuel)
    (hbusy : ∀ i, a ≤ i → i < k → f i = .error .busy)
    (hne : f k ≠ .error .busy) :
    retryGo f a s fuel = ⟨f k, k, s + (k - a)⟩ := by
  induction fuel generalizing a s with
  | zero =>
    have hka : k = a := by omega
    subst hka
    cases hfa : f k with
    | ok v => simp [retryGo, hfa]
    | error e =>
      cases e with
      | busy => exact absurd hfa hne
      | other m => simp [retryGo, hfa]
  | succ fuel ih =>
    by_cases hka : k = a
    · subst hka
      cases hfa : f k with
      | ok v => simp [retryGo, hfa]
      | error e =>
        cases e with
        | busy => exact absurd hfa hne
        | other m => simp [retryGo, hfa]
    · have hfa := hbusy a le_rfl (by omega)
      simp only [retryGo, hfa]
      rw [ih (a + 1) (s + 1) (by omega) (by omega)
        (fun i h1 h2 => hbusy i (by omega) h2)]
      have e1 : s + 1 + (k - (a + 1)) = s + (k - a) := by omega
      rw [e1]

/-- Claim C8: `retry_on_failure` invokes the closure at most 1000 times,
sleeps 1 ms between consecutive attempts (total sleeps = invocations - 1),
returns the busy error itself when the 1000th attempt is still busy, and
returns the closure's outcome immediately — after exactly `k` invocations
and `k - 1` sleeps — as soon as attempt `k` yields anything other than the
database-busy error. -/
theorem retry_on_failure_spec {T : Type} (f : Nat → Except DbError T) :
    (retry_on_failure f).invocations ≤ 1000 ∧
    (retry_on_failure f).sleepMs = (retry_on_failure f).invocations - 1 ∧
    ((∀ i, 1 ≤ i → i ≤ 1000 → f i = .error .busy) →
      retry_on_failure f = ⟨.error .busy, 1000, 999⟩) ∧
    (∀ k, 1 ≤ k → k ≤ 1000 →
      (∀ i, 1 ≤ i → i < k → f i = .error .busy) →
      f k ≠ .error .busy →
      retry_on_failure f = ⟨f k, k, k - 1⟩) := by
  refine ⟨?_, ?_, ?_, ?_⟩
  · exact (retryGo_invocations_bounds f 999 1 0).2
  · have h1 := retryGo_sleepMs f 999 1 0
    have h2 := retryGo_invocations_bounds f 999 1 0
    show (retryGo f 1 0 999).sleepMs = (retryGo f 1 0 999).invocations - 1
    omega
  · intro h
    exact retryGo_all_busy f 999 1 0 (fun i h1 h2 => h i h1 (by omega))
  · intro k hk1 hk2 hbusy hne
    have hgo := retryGo_first_non_busy f 999 1 0 k hk1 (by omega) hbusy hne
    show retryGo f 1 0 999 = _
    rw [hgo]
    have e1 : 0 + (k - 1) = k - 1 := by omega
    rw [e1]

/-- Witness for `retry_on_failure_spec`: a closure that is busy on attempts
1 and 2 and fails with a non-busy error on attempt 3 is invoked exactly 3
times, with 2 sleeps, and its error is returned unchanged. -/
theorem retry_on_failure_spec_witness :
    retry_on_failure
      (fun i => if i < 3 then (Except.error DbError.busy : Except DbError Unit)
                else Except.error (DbError.other "no such table"))
      = ⟨Except.error (DbError.other "no such table"), 3, 2⟩ := by
  have h := (retry_on_failure_spec
    (fun i => if i < 3 then (Except.error DbError.busy : Except DbError Unit)
              else Except.error (DbError.other "no such table"))).2.2.2
    3 (by omega) (by omega)
    (by intro i h1 h2
        have : i = 1 ∨ i = 2 := by omega
        rcases this with h | h <;> subst h <;> rfl)
    (by simp)
  simpa using h

theorem str_append_cancel_right (s : String) {a b : String}
    (h : a ++ s = b ++ s) : a = b := by
  have hdata := congrArg String.data h
  rw [String.data_append, String.data_append] at hdata
  exact String.ext (List.append_cancel_right hdata)

theorem dl_name_inj {v1 v2 kind : String}
    (h : v1 ++ "-" ++ "download" ++ KEY_SEP_CHAR.toString ++ "1.0.0"
          ++ "." ++ kind
        = v2 ++ "-" ++ "download" ++ KEY_SEP_CHAR.toString ++ "1.0.0"
          ++ "." ++ kind) :
    v1 = v2 := by
  have h1 := str_append_cancel_right kind h
  have h2 := str_append_cancel_right "." h1
  have h3 := str_append_cancel_right "1.0.0" h2
  have h4 := str_append_cancel_right KEY_SEP_CHAR.toString h3
  have h5 := str_append_cancel_right "download" h4
  exact str_append_cancel_right "-" h5

theorem agent_set_out_file_eq (assets_dir : FsPath)
    (name version kind : String) :
    agent_set_out_file assets_dir name version kind
      = (shard_spec name).map fun s =>
          assets_dir ++ s ++
            [version ++ "-" ++ "download" ++ KEY_SEP_CHAR.toString
              ++ "1.0.0" ++ "." ++ kind] := by
  unfold agent_set_out_file crate_dir shard_spec download_file_path
  split_ifs <;> simp [List.append_assoc]

theorem shard_spec_cases (n : String) (s : FsPath)
    (h : shard_spec n = some s) :
    (n.length = 1 ∧ s = ["1", n]) ∨
    (n.length = 2 ∧ s = ["2", n]) ∨
    (n.length = 3 ∧ s = ["3", n.take 1]) ∨
    (4 ≤ n.length ∧ s = [n.take 2, (n.drop 2).take 2, n]) := by
  unfold shard_spec at h
  split_ifs at h <;> simp_all

/-- Claim C6, counterexample: for crate `"ab"` version `"0.1.0"` kind
`"crate"`, the path `Agent::set` computes is not the spec's
`assets_dir / shard / crate_version / "download{SEP}1.0.0.{kind}"` — the
code produces the single filename `"0.1.0-download:1.0.0.crate"` under the
shard directory, with no `crate_version` directory. -/
theorem set_path_not_spec_path :
    agent_set_out_file [] "ab" "0.1.0" "crate"
      ≠ spec_set_out_file [] "ab" "0.1.0" "crate" := by
  decide

/-- Claim C6, amended: the output path the download agent's `set` computes
equals `assets_dir / shard(crate_name) /
"{crate_version}-download{SEP}1.0.0.{kind}"` — the crate version is joined
to the filename with a hyphen rather than forming a directory of its own —
where `shard` is exactly as the claim states it. -/
theorem set_path_formula (assets_dir : FsPath) (name version kind : String) :
    agent_set_out_file assets_dir name version kind
      = (shard_spec name).map fun s =>
          assets_dir ++ s ++
            [version ++ "-" ++ "download" ++ KEY_SEP_CHAR.toString
              ++ "1.0.0" ++ "." ++ kind] :=
  agent_set_out_file_eq assets_dir name version kind

/-- Claim C5, counterexample: the distinct ASCII pairs `("abc", "1.0.0")`
and `("abd", "1.0.0")` collide — both length-3 names shard to `"3"/"a"`
and the filename does not mention the crate name. -/
theorem download_path_collision :
    agent_set_out_file [] "abc" "1.0.0" "crate"
      = agent_set_out_file [] "abd" "1.0.0" "crate" ∧
    (("abc", "1.0.0") : String × String) ≠ ("abd", "1.0.0") := by
  decide

/-- Claim C5, amended: for distinct pairs of crate name and version, with
process `"download"`, process version `"1.0.0"` and kind `"crate"`, the
computed download paths are distinct — except when both names have length
3, share their first character and the versions are equal (then the paths
collide, as the counterexample shows). -/
theorem download_paths_distinct (assets_dir : FsPath)
    (n1 v1 n2 v2 : String) (p1 p2 : FsPath)
    (hd : (n1, v1) ≠ (n2, v2))
    (hex : ¬ (n1.length = 3 ∧ n2.length = 3 ∧ n1.take 1 = n2.take 1 ∧
      v1 = v2))
    (h1 : agent_set_out_file assets_dir n1 v1 "crate" = some p1)
    (h2 : agent_set_out_file assets_dir n2 v2 "crate" = some p2) :
    p1 ≠ p2 := by
  intro heq
  rw [agent_set_out_file_eq] at h1 h2
  cases hs1 : shard_spec n1 with
  | none => rw [hs1] at h1; cases h1
  | some s1 =>
    cases hs2 : shard_spec n2 with
    | none => rw [hs2] at h2; cases h2
    | some s2 =>
      rw [hs1] at h1
      rw [hs2] at h2
      simp only [Option.map_some', Option.some.injEq] at h1 h2
      rw [← h1, ← h2] at heq
      rcases shard_spec_cases n1 s1 hs1 with
        ⟨hl1, rfl⟩ | ⟨hl1, rfl⟩ | ⟨hl1, rfl⟩ | ⟨hl1, rfl⟩ <;>
      rcases shard_spec_cases n2 s2 hs2 with
        ⟨hl2, rfl⟩ | ⟨hl2, rfl⟩ | ⟨hl2, rfl⟩ | ⟨hl2, rfl⟩ <;>
      simp only [List.append_assoc, List.cons_append, List.nil_append,
        List.append_right_inj, List.cons.injEq, List.nil_eq,
        and_true, true_and] at heq
      all_goals try exact absurd heq.1 (by decide)
      all_goals try exact hd (by rw [heq.1, dl_name_inj heq.2])
      all_goals try exact hex ⟨hl1, hl2, heq.1, dl_name_inj heq.2⟩
      all_goals try exact hd (by rw [heq.2.2.1, dl_name_inj heq.2.2.2])
      all_goals simp at heq

/-- Witness for `download_paths_distinct`: the pairs `("serde", "1.0.0")`
and `("serde", "1.0.1")` receive different paths. -/
theorem download_paths_distinct_witness :
    agent_set_out_file [] "serde" "1.0.0" "crate"
      = some ["se", "rd", "serde", "1.0.0-download:1.0.0.crate"] ∧
    agent_set_out_file [] "serde" "1.0.1" "crate"
      = some ["se", "rd", "serde", "1.0.1-download:1.0.0.crate"] ∧
    (["se", "rd", "serde", "1.0.0-download:1.0.0.crate"] : FsPath)
      ≠ ["se", "rd", "serde", "1.0.1-download:1.0.0.crate"] := by
  refine ⟨by decide, by decide, ?_⟩
  exact download_paths_distinct [] "serde" "1.0.0" "serde" "1.0.1"
    ["se", "rd", "serde", "1.0.0-download:1.0.0.crate"]
    ["se", "rd", "serde", "1.0.1-download:1.0.0.crate"]
    (by decide) (by decide) (by decide) (by decide)

/-- Claim C7: when the HTTP response carries no Content-Length header, the
download agent's `process` fails with `InvalidHeader("expected
content-length")` wrapped with the context `Failed to download '<url>'`,
and neither the result table nor the asset directory changes — in
particular no `TaskResult::Download` row is written for the attempt. -/
theorem process_missing_content_length (results : Table TaskResult)
    (files : Files) (key kind url : String) (out_file : FsPath)
    (res : HttpResponse) (h : res.content_length = none) :
    agent_process results files key kind url out_file res
      = (.error (.invalidHeader "expected content-length",
            "Failed to download '" ++ url ++ "'"),
         results, files) := by
  unfold agent_process download_file_and_store_result
  rw [h]
  rfl

/-- Witness for `process_missing_content_length` at a concrete empty store
and a header-less response. -/
theorem process_missing_content_length_witness :
    agent_process (fun _ => none) (fun _ => none) "k" "crate"
        "https://crates.io/api/v1/crates/a/1.0.0/download" ["f"]
        ⟨none, none, []⟩
      = (.error (.invalidHeader "expected content-length",
            "Failed to download 'https://crates.io/api/v1/crates/a/1.0.0/download'"),
         fun _ => none, fun _ => none) := by
  have h := process_missing_content_length (fun _ => none) (fun _ => none)
    "k" "crate" "https://crates.io/api/v1/crates/a/1.0.0/download" ["f"]
    ⟨none, none, []⟩ rfl
  simpa using h

/-- Claim C9, counterexample: a response announcing Content-Length 5 whose
body delivers only 3 bytes makes `process` return `Ok`, records
`content_length = 5` in the `TaskResult::Download` row, yet leaves a file
of length 3 at the output path — the code never compares the bytes
received against the recorded header value. -/
theorem download_length_mismatch :
    (agent_process (fun _ => none) (fun _ => none) "k" "crate" "u" ["f"]
        ⟨some 5, none, [[0, 0, 0]]⟩).1 = .ok () ∧
    (agent_process (fun _ => none) (fun _ => none) "k" "crate" "u" ["f"]
        ⟨some 5, none, [[0, 0, 0]]⟩).2.1.get "k"
      = some (.download "crate" "u" 5 none) ∧
    ((agent_process (fun _ => none) (fun _ => none) "k" "crate" "u" ["f"]
        ⟨some 5, none, [[0, 0, 0]]⟩).2.2 ["f"]).map List.length
      = some 3 ∧
    ((agent_process (fun _ => none) (fun _ => none) "k" "crate" "u" ["f"]
        ⟨some 5, none, [[0, 0, 0]]⟩).2.2 ["f"]).map List.length
      ≠ some 5 := by
  refine ⟨rfl, ?_, ?_, ?_⟩
  · simp [agent_process, download_file_and_store_result, Table.get,
      Table.replaceInto]
  · simp [agent_process, download_file_and_store_result]
  · simp [agent_process, download_file_and_store_result]

/-- Claim C9, amended: when the response carries Content-Length `n` with
`n < 2 ^ 32` and the body chunks total exactly `n` bytes, `process`
returns `Ok`, the file at the computed output path exists holding the
body, and its length equals the `content_length` recorded in the
`TaskResult::Download` row. The hypothesis on the body total is forced by
the counterexample: the code records the header value while writing
whatever bytes arrive, without comparing the two. -/
theorem download_ok_file_length (results : Table TaskResult) (files : Files)
    (key kind url : String) (out_file : FsPath) (res : HttpResponse)
    (n : Nat) (h : res.content_length = some n) (hn : n < 2 ^ 32)
    (hb : res.chunks.flatten.length = n) :
    (agent_process results files key kind url out_file res).1 = .ok () ∧
    (agent_process results files key kind url out_file res).2.2 out_file
      = some res.chunks.flatten ∧
    (agent_process results files key kind url out_file res).2.1.get key
      = some (.download kind url res.chunks.flatten.length
          res.content_type) := by
  unfold agent_process download_file_and_store_result
  rw [h]
  refine ⟨rfl, by simp, ?_⟩
  simp [Table.get, Table.replaceInto]
  rw [show (List.map List.length res.chunks).sum = n by simpa using hb]
  exact Nat.mod_eq_of_lt (by simpa using hn)

/-- Witness for `download_ok_file_length`: three bytes announced and three
bytes delivered — the stored row records length 3 and the file holds the
3-byte body. -/
theorem download_ok_file_length_witness :
    (agent_process (fun _ => none) (fun _ => none) "k" "crate" "u" ["f"]
        ⟨some 3, none, [[1, 2, 3]]⟩).1 = .ok () ∧
    (agent_process (fun _ => none) (fun _ => none) "k" "crate" "u" ["f"]
        ⟨some 3, none, [[1, 2, 3]]⟩).2.2 ["f"] = some [1, 2, 3] ∧
    (agent_process (fun _ => none) (fun _ => none) "k" "crate" "u" ["f"]
        ⟨some 3, none, [[1, 2, 3]]⟩).2.1.get "k"
      = some (.download "crate" "u" 3 none) :=
  download_ok_file_length (fun _ => none) (fun _ => none) "k" "crate" "u"
    ["f"] ⟨some 3, none, [[1, 2, 3]]⟩ 3 rfl (by decide) rfl

/-- Claim C10: for every response whose Content-Length header is present
with value `n`, the `content_length` the agent records in the
`TaskResult::Download` row is `n % 2 ^ 32` (the `u64` header value cast to
`u32`), which is strictly smaller than the true header value whenever that
value does not fit in 32 bits. -/
theorem recorded_content_length_is_mod (results : Table TaskResult)
    (files : Files) (key kind url : String) (out_file : FsPath)
    (res : HttpResponse) (n : Nat) (h : res.content_length = some n) :
    (agent_process results files key kind url out_file res).2.1.get key
      = some (.download kind url (n % 2 ^ 32) res.content_type) ∧
    (2 ^ 32 ≤ n → n % 2 ^ 32 < n) := by
  constructor
  · unfold agent_process download_file_and_store_result
    rw [h]
    simp [Table.get, Table.replaceInto]
  · intro hn
    have h32 : (0 : Nat) < 2 ^ 32 := by norm_num
    have hlt := Nat.mod_lt n h32
    omega

/-- Witness for `recorded_content_length_is_mod`: a header value of
`2 ^ 32 + 5` is recorded as `5`. -/
theorem recorded_content_length_is_mod_witness :
    (agent_process (fun _ => none) (fun _ => none) "k" "crate" "u" ["f"]
        ⟨some (2 ^ 32 + 5), none, []⟩).2.1.get "k"
      = some (.download "crate" "u" 5 none) := by
  have h := (recorded_content_length_is_mod (fun _ => none) (fun _ => none)
    "k" "crate" "u" ["f"] ⟨some (2 ^ 32 + 5), none, []⟩ (2 ^ 32 + 5) rfl).1
  simpa using h

end Criner
